import Mathlib

/-!
# Verification of the AviaNZ batch-processing pipeline

Shallow embedding of `AviaNZ_batch.py` (class `AviaNZ_batchProcess`):
page scheduling, time-window filtering, detection dispatch, the
postprocessing stage gating, segment accumulation and the re-detection
wipe.  Python floats coming from JSON configuration and from sample
arithmetic are idealised as rationals (`ℚ`); sample counts and sample
rates are natural numbers.  External collaborator modules
(`util.Segment`, `util.WaveletSegment`, `util.SignalProc`) are not part
of the sources; where their behaviour decides a property, the
definitions below say so explicitly and are modelled from the spec.
-/

namespace AviaNZBatch

/-- One label record of a segment: `{species, certainty, filter, calltype}`
as built in `makeSegments`.  `none` models Python `None`. -/
structure SegLabel where
  species : Option String
  certainty : ℚ
  filter : Option String
  calltype : Option String
  deriving Repr, DecidableEq

/-- A detected acoustic event, as serialised:
`[timeStart, timeEnd, freqLow, freqHigh, labels]`. -/
structure Seg where
  t0 : ℚ
  t1 : ℚ
  freqLow : ℚ
  freqHigh : ℚ
  labels : List SegLabel
  deriving Repr, DecidableEq

/-- A post-processing candidate as held in `Segment.PostProcess.segments`:
`[[tstart, tend], certainty]` (`seg[0][0]`, `seg[0][1]`, `seg[1]`). -/
abbrev PPSeg : Type := (ℚ × ℚ) × ℚ

/-- The metadata record of a `SegmentList`.  Python keeps a dict whose keys
may be absent or `None`; both states are collapsed into `none` here
(no claim distinguishes them). -/
structure SLMeta where
  operator : Option String
  reviewer : Option String
  duration : Option ℚ
  noiseLevel : Option String
  noiseTypes : List String
  deriving Repr, DecidableEq

/-- The `"WaveletParams"` block of a subfilter.  Only the optional
`"win"` key is read by the batch code (`subf["WaveletParams"].get("win", 1)`). -/
structure WaveletParams where
  win : Option ℚ
  deriving Repr, DecidableEq

/-- One subfilter (one calltype) of a recogniser filter.
`timeRange = [minLen, maxLen, avgSyllableLen, maxGap]`,
`freqRange = [low, high]`.  `F0` is the optional boolean key `"F0"`;
`F0Range` the optional key `"F0Range"`. -/
structure SubFilter where
  calltype : String
  timeRange : ℚ × ℚ × ℚ × ℚ
  freqRange : ℚ × ℚ
  waveletParams : WaveletParams
  F0 : Option Bool
  F0Range : Option (ℚ × ℚ)
  deriving Repr, DecidableEq

/-- A recogniser filter: target species, sample rate, optional
`"method"` key (`"wv"` / `"chp"` / absent) and the subfilter list
(key `"Filters"`). -/
structure Filter where
  species : String
  sampleRate : ℕ
  method : Option String
  filters : List SubFilter
  deriving Repr, DecidableEq

/-! ## Page scheduling (`detectFile`, lines 218–246)

`samplesInPage` is chosen from the sample rate, the method string and the
minimum `"win"` wavelet parameter over all subfilters of all active
filters; then the file's `[0, N)` sample range is cut into
`(N-1)//samplesInPage + 1` pages `[p*sip, min((p+1)*sip, N))`. -/

/-- The Python list comprehension
`[subf["WaveletParams"].get("win", 1) for f in filters for subf in f["Filters"]]`. -/
def winList (filters : List Filter) : List ℚ :=
  (filters.map (fun f => f.filters.map (fun subf => subf.waveletParams.win.getD 1))).flatten

/-- `min(winList)`: Python `min` of a list, `none` on the empty list
(where Python raises `ValueError`). -/
def minWinsize (filters : List Filter) : Option ℚ :=
  match winList filters with
  | [] => none
  | w :: ws => some (ws.foldl min w)

/-- Page length in samples (`detectFile` lines 218–237).  `0.05` and
`4500*0.05` are exact in binary floating point up to the final product,
which rounds to exactly `225.0`, so the rational model coincides with
the Python computation.  `none` models the `ValueError` that
`min([])` raises when no subfilter exists on the wavelet path. -/
def samplesInPage (fs : ℕ) (method : String) (filters : List Filter) : Option ℕ :=
  if fs ≤ 4000 then
    some (300 * fs)
  else if method = "Wavelets" then
    match minWinsize filters with
    | none => none
    | some w =>
      if w < mkRat 1 20 then some (Int.toNat ⌊(4500 : ℚ) * mkRat 1 20 * (fs : ℚ)⌋)
      else some (900 * 16000)
  else
    some (900 * 16000)

/-- `numPages = (self.datalength - 1) // samplesInPage + 1` with Python
floor division (exact also for `datalength = 0`). -/
def numPages (N sip : ℕ) : ℤ :=
  ((N : ℤ) - 1).fdiv (sip : ℤ) + 1

/-- The pages of `range(numPages)`: page `p` covers samples
`[p*sip, min(p*sip + sip, N))` (`start`/`end` of `detectFile` lines 244–245). -/
def pageBounds (N sip : ℕ) : List (ℕ × ℕ) :=
  (List.range (numPages N sip).toNat).map (fun p => (p * sip, min (p * sip + sip) N))

/-! ## Postprocessing stage gating (`postProcFull`, lines 366–379)

The stages that `postProcFull` invokes on `Segment.PostProcess` are
external; which of them run, with which numeric arguments, is decided
entirely by the batch code and is recorded here as an ordered trace. -/

/-- One invocation of an external `Segment.PostProcess` stage. -/
inductive PPStage where
  | cnn : PPStage
  | fundfreq : PPStage
  | joinGaps (maxgap : ℚ) : PPStage
  | deleteShort (minlength : ℚ) : PPStage
  deriving Repr, DecidableEq

/-- The ordered list of postprocessing stages that `postProcFull` runs for
one subfilter (lines 366–379): `post.CNN()` if a CNN model was resolved;
then, when `"method" not in spInfo or spInfo["method"] == "wv"`,
`post.fundamentalFrq()` if `"F0" in subfilter and "F0Range" in subfilter
and subfilter["F0"]`, followed unconditionally (in that branch) by
`post.joinGaps(maxgap=subfilter["TimeRange"][3])`; finally
`post.deleteShort(minlength=subfilter["TimeRange"][0])` if
`subfilter["TimeRange"][0] > 0`. -/
def postProcStages (spInfo : Filter) (subfilter : SubFilter) (cnnModel : Bool) :
    List PPStage :=
  (if cnnModel then [PPStage.cnn] else []) ++
  (if spInfo.method = none ∨ spInfo.method = some "wv" then
    (if subfilter.F0 = some true ∧ subfilter.F0Range.isSome then [PPStage.fundfreq] else [])
      ++ [PPStage.joinGaps subfilter.timeRange.2.2.2]
  else []) ++
  (if 0 < subfilter.timeRange.1 then [PPStage.deleteShort subfilter.timeRange.1] else [])

/-! ## Time-window decision (`mainloop`, lines 132–155)

`re.search(r"(\d{6})_(\d{6})", os.path.basename(filename))` looks for the
leftmost position at which six digits, an underscore and six more digits
match; the second digit group is read as `HHMMSS`.  Both digit groups are
fixed-length, so a leftmost-start scan reproduces `re.search` exactly
(digits are modelled as ASCII `0`–`9`). -/

/-- `os.path.basename`: the part of the name after the last `/`. -/
def basename (cs : List Char) : List Char :=
  ((cs.reverse.takeWhile (fun c => c ≠ '/')).reverse)

/-- Try to match `(\d{6})_(\d{6})` at the head of the string; on success
return the second digit group. -/
def matchDOCAt : List Char → Option (List Char)
  | a :: b :: c :: d :: e :: f :: u :: g :: h :: i :: j :: k :: l :: _ =>
    if ([a, b, c, d, e, f].all Char.isDigit) ∧ u = '_' ∧
        ([g, h, i, j, k, l].all Char.isDigit) then
      some [g, h, i, j, k, l]
    else none
  | _ => none

/-- `re.search(r"(\d{6})_(\d{6})", s)`: scan for the leftmost matching
start position; return `group(2)`. -/
def searchDOC : List Char → Option (List Char)
  | [] => none
  | c :: cs =>
    match matchDOCAt (c :: cs) with
    | some g => some g
    | none => searchDOC cs

/-- Numeric value of an ASCII digit. -/
def digitVal (c : Char) : ℕ := c.toNat - '0'.toNat

/-- `sTime = int(t[:2])*3600 + int(t[2:4])*60 + int(t[4:6])` for the
six-character clock group (`mainloop` lines 135–140). -/
def sTimeOf : List Char → ℕ
  | [a, b, c, d, e, f] =>
    (10 * digitVal a + digitVal b) * 3600 + (10 * digitVal c + digitVal d) * 60 +
      (10 * digitVal e + digitVal f)
  | _ => 0

/-- The decision of `mainloop` lines 132–155: a file is processed unless it
carries a DOC timestamp whose clock time falls outside the configured
window.  `timeWindow_s = timeWindow_e` disables the window; a window with
`timeWindow_s < timeWindow_e` is a same-day interval; one with
`timeWindow_s > timeWindow_e` spans midnight. -/
def fileProcessed (filename : List Char) (timeWindow_s timeWindow_e : ℕ) : Bool :=
  match searchDOC (basename filename) with
  | none => true
  | some g =>
    let sTime := sTimeOf g
    if timeWindow_s = timeWindow_e then true
    else if timeWindow_s < timeWindow_e then
      decide (timeWindow_s ≤ sTime ∧ sTime ≤ timeWindow_e)
    else
      decide (timeWindow_s ≤ sTime ∨ sTime ≤ timeWindow_e)

/-! ## Segment accumulation (`makeSegments`, lines 388–421) -/

/-- Modelled from the spec: `SegmentList.addSegment` of `util.Segment`
(not under the given sources) appends the new segment to the list
("New segments are appended; no automatic merging across pages happens
here"). -/
def addSegment (segmentsList : List Seg) (segment : Seg) : List Seg :=
  segmentsList ++ [segment]

/-- Modelled from the spec: `SegmentList.addBasicSegments` of
`util.Segment` (not under the given sources) turns each candidate into a
segment with the given frequency pair and a single label with the given
species and certainty ("Any-sound mode: each candidate becomes a Segment
with frequency range `(0,0)`, a single label
`{species:"Don't Know", certainty:0, filterName:None, calltype:None}`"). -/
def addBasicSegments (segmentsList : List Seg) (segmentsNew : List PPSeg)
    (freq : ℚ × ℚ) (species : String) (certainty : ℚ) : List Seg :=
  segmentsList ++ segmentsNew.map (fun s =>
    { t0 := s.1.1, t1 := s.1.2, freqLow := freq.1, freqHigh := freq.2,
      labels := [{ species := some species, certainty := certainty,
                   filter := none, calltype := none }] })

/-- `makeSegments` (lines 388–421).  In labeled mode
(`subfilter is not None`) it stamps `y1 = subfilter["FreqRange"][0]`,
`y2 = min(subfilter["FreqRange"][1], self.sampleRate // 2)` — note the
Python floor division — and adds one `Segment.Segment`
`[s[0][0], s[0][1], y1, y2, [{species, certainty: s[1], filter, calltype}]]`
per candidate; otherwise it calls `addBasicSegments` with `[0, 0]`,
species `"Don't Know"` and certainty `0.0`.  The labeled/any-sound mode
switch is the `Option`al `(filtName, species, subfilter)` triple. -/
def makeSegments (sampleRate : ℕ) (segmentsList : List Seg) (segmentsNew : List PPSeg)
    (mode : Option (String × String × SubFilter)) : List Seg :=
  match mode with
  | some (filtName, species, subfilter) =>
    let y1 := subfilter.freqRange.1
    let y2 := min subfilter.freqRange.2 ((sampleRate / 2 : ℕ) : ℚ)
    segmentsNew.foldl (fun acc s =>
      addSegment acc
        { t0 := s.1.1, t1 := s.1.2, freqLow := y1, freqHigh := y2,
          labels := [{ species := some species, certainty := s.2,
                       filter := some filtName, calltype := some subfilter.calltype }] })
      segmentsList
  | none => addBasicSegments segmentsList segmentsNew (0, 0) "Don't Know" 0

/-- The spec's words for the stamped upper frequency edge:
"`FreqRange = [subfilter.low, min(subfilter.high, sampleRate/2)]`
(clipped to Nyquist)" — true division by 2, to be compared with the
source's floor division. -/
def specFreqHigh (sampleRate : ℕ) (high : ℚ) : ℚ :=
  min high ((sampleRate : ℚ) / 2)

/-- The bounds invariant claimed for every produced segment:
`0 ≤ timeStart < timeEnd` and `0 ≤ freqLow ≤ freqHigh ≤ fs/2`. -/
def segOK (fs : ℕ) (g : Seg) : Prop :=
  0 ≤ g.t0 ∧ g.t0 < g.t1 ∧ 0 ≤ g.freqLow ∧ g.freqLow ≤ g.freqHigh ∧
    g.freqHigh ≤ (fs : ℚ) / 2

/-! ## Page-offset correction (lines 281–284 and 381–386)

Both the any-sound page branch of `detectFile` and the tail of
`postProcFull` run the same loop:
`if start != 0: for seg in post.segments: seg[0][0] += start/self.sampleRate;
seg[0][1] += start/self.sampleRate`. -/

/-- The offset loop at the end of `postProcFull` (lines 381–386). -/
def postProcAdjust (start sampleRate : ℕ) (segments : List PPSeg) : List PPSeg :=
  if start ≠ 0 then
    segments.map (fun seg =>
      ((seg.1.1 + (start : ℚ) / (sampleRate : ℚ), seg.1.2 + (start : ℚ) / (sampleRate : ℚ)),
        seg.2))
  else segments

/-- The identical offset loop in the any-sound branch of `detectFile`
(lines 281–284). -/
def anySoundAdjust (start sampleRate : ℕ) (segments : List PPSeg) : List PPSeg :=
  if start ≠ 0 then
    segments.map (fun seg =>
      ((seg.1.1 + (start : ℚ) / (sampleRate : ℚ), seg.1.2 + (start : ℚ) / (sampleRate : ℚ)),
        seg.2))
  else segments

/-! ## Re-detection wipe (`loadFile`, lines 473–486)

`getSpecies` and `wipeSpecies` live in `util.Segment`, outside the given
sources, and are modelled from the spec; the loop structure
(`for sp in species: for i in reversed(oldsegs): ... del self.segments[i]`)
is the source's. -/

/-- Does a segment carry a label of the given species?  Modelled from the
spec: `SegmentList.getSpecies(spname)` returns the indices of exactly
those segments. -/
def hasSpeciesLabel (spname : String) (g : Seg) : Bool :=
  g.labels.any (fun l => l.species = some spname)

/-- Modelled from the spec: `Segment.wipeSpecies(spname)` removes the
labels of that species from the segment and reports whether the segment
became label-less ("a segment that becomes label-less after wiping its
only matching label is removed entirely"). -/
def wipeSpeciesSeg (spname : String) (g : Seg) : Seg × Bool :=
  let keep := g.labels.filter (fun l => l.species ≠ some spname)
  ({ g with labels := keep }, keep.isEmpty)

/-- The inner wipe loop of `loadFile` for one species name: every segment
indexed by `getSpecies(spname)` is wiped, and deleted when `wipeSpecies`
reports it became empty; deletion by descending index leaves the other
segments in order. -/
def wipeOneSpecies (spname : String) (segments : List Seg) : List Seg :=
  segments.filterMap (fun g =>
    if hasSpeciesLabel spname g then
      let w := wipeSpeciesSeg spname g
      if w.2 then none else some w.1
    else some g)

/-- The outer loop `for sp in species:` of `loadFile` (lines 478–486),
taking the species names `self.FilterDicts[sp]["species"]` of the
recognisers being re-detected. -/
def loadFileWipe (spnames : List String) (segments : List Seg) : List Seg :=
  spnames.foldl (fun acc sp => wipeOneSpecies sp acc) segments

/-! ## Fatal configuration checks (`detect` lines 76–82, `detectFile`
lines 301–318) -/

/-- The sample-rate uniformity check of `detect`:
`samplerate = set([filt["SampleRate"] for filt in filters]);
if len(samplerate) > 1: raise ValueError(...)`. -/
def detectSampleRateCheck (filters : List Filter) : Except String Unit :=
  if 1 < ((filters.map (fun f => f.sampleRate)).dedup).length then
    Except.error "ERROR: multiple sample rates found in selected recognisers, change selection"
  else Except.ok ()

/-- The detection methods the dispatch accepts. -/
inductive WvMethod where
  | wv : WvMethod
  | chp : WvMethod
  deriving Repr, DecidableEq

/-- The method dispatch of `detectFile` (lines 301–318):
`"method" not in filters[i] or filters[i]["method"] == "wv"` →
`waveletSegment`; `== "chp"` → `waveletSegmentChp`; anything else raises. -/
def dispatchMethod (f : Filter) : Except String WvMethod :=
  match f.method with
  | none => Except.ok WvMethod.wv
  | some m =>
    if m = "wv" then Except.ok WvMethod.wv
    else if m = "chp" then Except.ok WvMethod.chp
    else Except.error "ERROR: unrecognized method"

/-! ## The per-file run (`detectFile`, lines 211–346, and `detect`,
lines 60–115)

The external detectors and the internal stages of
`Segment.PostProcess` are abstracted as oracles:
`postOut start speciesix filtix` is `post.segments` of `postProcFull`
after the (external) CNN / fundamental-frequency / gap / length stages
and before the offset loop, and `anyOut start` is the corresponding
any-sound-branch candidate list.  Everything else — paging, the
too-short page skip, the method dispatch, the offset loop, the
accumulation into `self.segments` and the final `return len(postsegs)`
— is the source's control flow.  A local variable that Python would
report as unassigned (`NameError`) is threaded as an `Option`. -/

/-- The inner `for filtix in range(len(spInfo["Filters"]))` loop of
`detectFile` (lines 325–345) for one filter: each subfilter's
postprocessed candidates (offset-corrected, lines 381–386) are assigned
to `postsegs` and accumulated via `makeSegments` with
`(self.species[speciesix], spInfo["species"], spInfo["Filters"][filtix])`. -/
def runSubfilters (sampleRate start : ℕ) (name : String) (f : Filter)
    (postOut : ℕ → List PPSeg) (acc : List Seg × Option (List PPSeg)) :
    List Seg × Option (List PPSeg) :=
  f.filters.enum.foldl (fun a fi =>
    let postsegs := postProcAdjust start sampleRate (postOut fi.1)
    (makeSegments sampleRate a.1 postsegs (some (name, f.species, fi.2)), some postsegs))
    acc

/-- The `for speciesix in range(len(filters))` loop of `detectFile`
(lines 301–345): dispatch the method (raising on an unrecognized one),
then post-process and accumulate each subfilter. -/
def runFiltersOnPage (sampleRate start : ℕ) (nfilters : List (String × Filter))
    (postOut : ℕ → ℕ → List PPSeg) (acc : List Seg × Option (List PPSeg)) :
    Except String (List Seg × Option (List PPSeg)) :=
  nfilters.enum.foldlM (fun a nf =>
    match dispatchMethod nf.2.2 with
    | Except.error e => Except.error e
    | Except.ok _ => Except.ok (runSubfilters sampleRate start nf.2.1 nf.2.2 (postOut nf.1) a))
    acc

/-- One iteration of the page loop of `detectFile` (lines 243–345):
skip the page when `thisPageLen < 2` and the method is neither
`"Click"` nor `"Bats"`; otherwise run the any-sound branch
(lines 252–288) or the filtered branch (lines 289–345). -/
def processPage (sampleRate : ℕ) (method speciesStr : String)
    (nfilters : List (String × Filter)) (postOut : ℕ → ℕ → ℕ → List PPSeg)
    (anyOut : ℕ → List PPSeg) (acc : List Seg × Option (List PPSeg))
    (pg : ℕ × ℕ) : Except String (List Seg × Option (List PPSeg)) :=
  if mkRat ((pg.2 - pg.1 : ℕ) : ℤ) sampleRate < 2 ∧ method ≠ "Click" ∧ method ≠ "Bats" then
    Except.ok acc
  else if speciesStr = "Any sound" then
    Except.ok
      (makeSegments sampleRate acc.1 (anySoundAdjust pg.1 sampleRate (anyOut pg.1)) none,
        acc.2)
  else
    runFiltersOnPage sampleRate pg.1 nfilters (fun spix fix => postOut pg.1 spix fix) acc

/-- `detectFile` (lines 211–346): compute the page length, loop over the
pages, and finish with `return len(postsegs)` — a `NameError` when no
branch ever assigned `postsegs`.  The result pairs the accumulated
`self.segments` with the returned count. -/
def detectFileRun (sampleRate datalength : ℕ) (method speciesStr : String)
    (nfilters : List (String × Filter)) (postOut : ℕ → ℕ → ℕ → List PPSeg)
    (anyOut : ℕ → List PPSeg) (initSegs : List Seg) :
    Except String (List Seg × ℕ) :=
  match samplesInPage sampleRate method (nfilters.map Prod.snd) with
  | none => Except.error "ValueError: min() arg is an empty sequence"
  | some sip =>
    match (pageBounds datalength sip).foldlM
        (processPage sampleRate method speciesStr nfilters postOut anyOut)
        (initSegs, (none : Option (List PPSeg))) with
    | Except.error e => Except.error e
    | Except.ok (_, none) => Except.error "NameError: name 'postsegs' is not defined"
    | Except.ok (segs, some ps) => Except.ok (segs, ps.length)

/-- `saveAnnotation` (lines 423–438): set `Operator`, `Reviewer`,
`Duration` (the latter unless the method is `"Intermittent sampling"`),
null the noise metadata, and `saveJSON` to `filename + suffix`
(default suffix `".data"`).  The list of files written so far is
threaded explicitly. -/
def saveAnnotationRun (meta : SLMeta) (filename : String) (datalength sampleRate : ℕ)
    (method : String) (savedFiles : List String) : SLMeta × List String :=
  let m1 := { meta with operator := some "Auto", reviewer := some "" }
  let m2 :=
    if method ≠ "Intermittent sampling" then
      { m1 with duration := some ((datalength : ℚ) / (sampleRate : ℚ)) }
    else m1
  let m3 := { m2 with noiseLevel := none, noiseTypes := [] }
  (m3, savedFiles ++ [filename ++ ".data"])

/-- `detect` (lines 60–115) for a wavelet run: check that all selected
filters share one sample rate (raising `ValueError` otherwise), then run
`mainloop` on the single file — the time window is hard-coded to
`(0, 0)`, hence disabled — which loads the file (`loadFile`: fresh
default metadata when no sidecar exists, otherwise the parsed sidecar
with the re-detected species wiped) and calls `detectFile`.  `sidecar`
is the oracle for `os.path.isfile(filename + ".data")` /
`parseJSON`.  The final component is the list of annotation files
written during the run: no branch of `detect`/`mainloop`/`detectFile`
calls `saveAnnotation` or `saveJSON`, so it is `[]`. -/
def detectRun (nfilters : List (String × Filter)) (sidecar : Option (SLMeta × List Seg))
    (sampleRate datalength : ℕ) (postOut : ℕ → ℕ → ℕ → List PPSeg)
    (anyOut : ℕ → List PPSeg) :
    Except String (SLMeta × List Seg × ℕ × List String) :=
  match detectSampleRateCheck (nfilters.map Prod.snd) with
  | Except.error e => Except.error e
  | Except.ok _ =>
    let speciesStr := String.intercalate " & " (nfilters.map Prod.fst)
    let loaded : SLMeta × List Seg :=
      match sidecar with
      | none =>
        ({ operator := some "Auto", reviewer := some "",
           duration := some ((datalength : ℚ) / (sampleRate : ℚ)),
           noiseLevel := none, noiseTypes := [] }, [])
      | some (m, segs) => (m, loadFileWipe (nfilters.map (fun nf => nf.2.species)) segs)
    match detectFileRun sampleRate datalength "Wavelets" speciesStr nfilters postOut anyOut
        loaded.2 with
    | Except.error e => Except.error e
    | Except.ok (segs, n) => Except.ok (loaded.1, segs, n, ([] : List String))

/-! ## Concrete configuration used by witnesses and counterexamples -/

/-- A concrete wavelet subfilter. -/
def exSub : SubFilter :=
  { calltype := "call", timeRange := (1/2, 10, 1, 1), freqRange := (1000, 7000),
    waveletParams := { win := some 1 }, F0 := none, F0Range := none }

/-- A concrete recogniser filter with one subfilter. -/
def exFilter : Filter :=
  { species := "Kiwi", sampleRate := 16000, method := some "wv", filters := [exSub] }

/-- A concrete detector/postprocessing oracle: one candidate
`[[0, 1], 50]` for every page and subfilter. -/
def exPost : ℕ → ℕ → ℕ → List PPSeg := fun _ _ _ => [((0, 1), 50)]

/-- A concrete changepoint-method filter, for the gating witness. -/
def exChpFilter : Filter :=
  { species := "LTBat", sampleRate := 176000, method := some "chp", filters := [exSub] }

/-- A subfilter whose upper frequency edge sits above an odd sample
rate's half, exposing the floor in `self.sampleRate // 2`. -/
def exSubOdd : SubFilter :=
  { calltype := "c", timeRange := (0, 0, 0, 0), freqRange := (0, 22051),
    waveletParams := { win := none }, F0 := none, F0Range := none }

/-- A subfilter whose whole frequency range lies above the Nyquist
frequency of an 8 kHz recording. -/
def exSubHigh : SubFilter :=
  { calltype := "c", timeRange := (0, 0, 0, 0), freqRange := (5000, 7000),
    waveletParams := { win := none }, F0 := none, F0Range := none }

/-- A filter whose `"method"` key holds an unrecognized string. -/
def exBadFilter : Filter :=
  { species := "X", sampleRate := 16000, method := some "nn", filters := [] }

/-- A second recogniser at a different sample rate. -/
def exFilter8k : Filter :=
  { species := "Bittern", sampleRate := 8000, method := some "wv", filters := [exSub] }

/-- The effect of one wipe pass on a label list, at the list level:
`none` when everything was wiped away, the untouched list when nothing
matched. -/
def stepList {α : Type} (p : α → Bool) (ls : List α) : Option (List α) :=
  if ls.any p then
    (if (ls.filter (fun a => !(p a))).isEmpty then none
     else some (ls.filter (fun a => !(p a))))
  else some ls


/-! ## Helper lemmas on pages -/

lemma neg_one_ediv_pos (s : ℤ) (h : 1 ≤ s) : (-1 : ℤ) / s = -1 :=
  ((Int.ediv_emod_unique (a := -1) (b := s) (q := -1) (r := s - 1) (by omega)).mpr
    ⟨by ring, by omega, by omega⟩).1

/-- Python's `(N - 1) // sip + 1` equals the ceiling `⌈N / sip⌉`,
written as `(N + sip - 1) / sip` in natural-number division. -/
lemma numPages_toNat (N sip : ℕ) (h : 1 ≤ sip) :
    (numPages N sip).toNat = (N + sip - 1) / sip := by
  rcases Nat.eq_zero_or_pos N with h0 | h1
  · subst h0
    unfold numPages
    rw [show ((0 : ℕ) : ℤ) - 1 = -1 by norm_num,
      Int.fdiv_eq_ediv _ (by positivity), neg_one_ediv_pos _ (by exact_mod_cast h)]
    have : (sip - 1) / sip = 0 := Nat.div_eq_of_lt (by omega)
    simp [this]
  · have heq : numPages N sip = (((N - 1) / sip + 1 : ℕ) : ℤ) := by
      unfold numPages
      rw [show (N : ℤ) - 1 = ((N - 1 : ℕ) : ℤ) by push_cast [h1]; ring,
        ← Int.ofNat_fdiv]
      push_cast
      ring
    rw [heq, Int.toNat_natCast, show N + sip - 1 = (N - 1) + sip by omega,
      Nat.add_div_right _ h]

lemma lt_of_lt_ceil {N sip i : ℕ} (h : 1 ≤ sip) (hi : i < (N + sip - 1) / sip) :
    i * sip < N := by
  have h3 : (i + 1) * sip ≤ N + sip - 1 := (Nat.le_div_iff_mul_le h).mp hi
  have h4 : i * sip + sip = (i + 1) * sip := by ring
  omega

lemma ceil_mul_ge {N sip : ℕ} (h : 1 ≤ sip) : N ≤ ((N + sip - 1) / sip) * sip := by
  by_contra hc
  push_neg at hc
  have h2 : ((N + sip - 1) / sip + 1) * sip ≤ N + sip - 1 := by
    rw [add_mul, one_mul]; omega
  have h3 := (Nat.le_div_iff_mul_le h).mpr h2
  omega

lemma pageBounds_length (N sip : ℕ) (h : 1 ≤ sip) :
    (pageBounds N sip).length = (N + sip - 1) / sip := by
  simp [pageBounds, numPages_toNat N sip h]

lemma pageBounds_get (N sip i : ℕ) (hi : i < (pageBounds N sip).length) :
    (pageBounds N sip).get ⟨i, hi⟩ = (i * sip, min (i * sip + sip) N) := by
  simp [pageBounds]

/-- **C1** Page sizing and paging.  For a file processed with the wavelet
method (`self.method == "Wavelets"`, as `detect` always sets):
the page length is `300*fs` samples when `fs ≤ 4000`; otherwise
`int(4500*0.05*fs)` (= `225*fs` exactly) when the minimum `"win"`
parameter over all active subfilters (default `1`) is below `0.05`;
otherwise `900*16000`.  The number of pages is `⌈N / pageLength⌉`, and
the pages `[p*sip, min((p+1)*sip, N))` form an ordered, non-overlapping,
gap-free partition of `[0, N)`: page `i` is nonempty, consecutive pages
abut, the first page starts at `0` and the last ends at `N`. -/
theorem pageScheduler_pages_partition
    (fs N : ℕ) (filters : List Filter) (w : ℚ) (sip : ℕ)
    (hfs : 1 ≤ fs)
    (hw : minWinsize filters = some w)
    (hsip : samplesInPage fs "Wavelets" filters = some sip) :
    (fs ≤ 4000 → sip = 300 * fs) ∧
    (4000 < fs → w < 1/20 →
      sip = Int.toNat ⌊(4500 : ℚ) * (1/20) * (fs : ℚ)⌋ ∧ sip = 225 * fs) ∧
    (4000 < fs → ¬ w < 1/20 → sip = 900 * 16000) ∧
    (pageBounds N sip).length = (N + sip - 1) / sip ∧
    (∀ i (hi : i < (pageBounds N sip).length),
      ((pageBounds N sip).get ⟨i, hi⟩).1 = i * sip ∧
      ((pageBounds N sip).get ⟨i, hi⟩).2 = min ((i + 1) * sip) N ∧
      ((pageBounds N sip).get ⟨i, hi⟩).1 < ((pageBounds N sip).get ⟨i, hi⟩).2) ∧
    (∀ i (hi : i + 1 < (pageBounds N sip).length),
      ((pageBounds N sip).get ⟨i, by omega⟩).2 = ((pageBounds N sip).get ⟨i + 1, hi⟩).1) ∧
    (∀ hlen : 0 < (pageBounds N sip).length,
      ((pageBounds N sip).get ⟨0, hlen⟩).1 = 0 ∧
      ((pageBounds N sip).get ⟨(pageBounds N sip).length - 1, by omega⟩).2 = N) := by
  have h20 : (mkRat 1 20 : ℚ) = 1/20 := by
    rw [Rat.mkRat_eq_div]
    norm_num
  have hfloor : Int.toNat ⌊(4500 : ℚ) * (1/20) * (fs : ℚ)⌋ = 225 * fs := by
    have : (4500 : ℚ) * (1/20) * (fs : ℚ) = ((225 * fs : ℕ) : ℚ) := by push_cast; ring
    rw [this, Int.floor_natCast, Int.toNat_natCast]
  have hsipval : (fs ≤ 4000 → sip = 300 * fs) ∧
      (4000 < fs → w < 1/20 → sip = 225 * fs) ∧
      (4000 < fs → ¬ w < 1/20 → sip = 900 * 16000) := by
    unfold samplesInPage at hsip
    by_cases h4 : fs ≤ 4000
    · simp only [if_pos h4, Option.some.injEq] at hsip
      exact ⟨fun _ => hsip.symm, fun hlt => absurd h4 (by omega), fun hlt => absurd h4 (by omega)⟩
    · simp only [if_neg h4, if_true, hw] at hsip
      rw [h20] at hsip
      by_cases hwlt : w < 1/20
      · simp only [if_pos hwlt, Option.some.injEq] at hsip
        exact ⟨fun hle => absurd hle h4, fun _ _ => by rw [← hsip, hfloor],
          fun _ hn => absurd hwlt hn⟩
      · simp only [if_neg hwlt, Option.some.injEq] at hsip
        exact ⟨fun hle => absurd hle h4, fun _ hlt => absurd hlt hwlt, fun _ _ => hsip.symm⟩
  have hsip1 : 1 ≤ sip := by
    rcases hsipval with ⟨hc1, hc2, hc3⟩
    by_cases h4 : fs ≤ 4000
    · rw [hc1 h4]; omega
    · by_cases hwlt : w < 1/20
      · rw [hc2 (by omega) hwlt]; omega
      · rw [hc3 (by omega) hwlt]; omega
  have hlen := pageBounds_length N sip hsip1
  refine ⟨hsipval.1, fun ha hb => ⟨by rw [hsipval.2.1 ha hb, hfloor], hsipval.2.1 ha hb⟩,
    hsipval.2.2, hlen, ?_, ?_, ?_⟩
  · intro i hi
    rw [pageBounds_get N sip i hi]
    have hiN : i * sip < N := lt_of_lt_ceil hsip1 (by rw [← hlen]; exact hi)
    refine ⟨rfl, by rw [add_mul, one_mul], ?_⟩
    simp only [lt_min_iff]
    omega
  · intro i hi
    rw [pageBounds_get N sip i (by omega), pageBounds_get N sip (i + 1) hi]
    have hiN : (i + 1) * sip < N :=
      lt_of_lt_ceil hsip1 (by rw [← hlen]; omega)
    simp only [min_eq_left_iff]
    rw [show i * sip + sip = (i + 1) * sip by ring]
    omega
  · intro hlen0
    constructor
    · rw [pageBounds_get N sip 0 hlen0]
      simp
    · rw [pageBounds_get N sip _ (by omega)]
      have h1 : N ≤ ((N + sip - 1) / sip) * sip := ceil_mul_ge hsip1
      rw [← hlen] at h1
      have h3 : ((pageBounds N sip).length - 1) * sip + sip =
          (pageBounds N sip).length * sip := by
        rcases Nat.exists_eq_add_of_le (show 1 ≤ (pageBounds N sip).length from hlen0)
          with ⟨k, hk⟩
        rw [hk, show 1 + k - 1 = k by omega, add_mul, one_mul]
        ring
      simp only [min_eq_right_iff]
      omega

/-- Witness for C1 at the spec's example: `fs = 2000`, `N = 1,000,000`
gives page length `600,000` and two pages, the last one shorter. -/
theorem pageScheduler_pages_partition_witness :
    (600000 : ℕ) = 300 * 2000 ∧ (pageBounds 1000000 600000).length = 2 := by
  have h := pageScheduler_pages_partition 2000 1000000 [exFilter] 1 600000
    (by norm_num) (by decide) (by decide)
  exact ⟨h.1 (by norm_num), h.2.2.2.1.trans (by norm_num)⟩

/-- **C2** Postprocessing gating.  In `postProcFull`, for every subfilter:
the fundamental-frequency check runs exactly when the filter's `method`
is `"wv"` or absent and the subfilter has a truthy `"F0"` and an
`"F0Range"` key; the gap join with `maxgap = TimeRange[3]` runs exactly
when the method is `"wv"` or absent (so never for `"chp"`); and the
short-segment deletion with `minlength = TimeRange[0]` runs if and only
if `TimeRange[0] > 0`. -/
theorem postProcFull_stage_gating (spInfo : Filter) (subfilter : SubFilter)
    (cnnModel : Bool) :
    (PPStage.fundfreq ∈ postProcStages spInfo subfilter cnnModel ↔
      ((spInfo.method = none ∨ spInfo.method = some "wv") ∧
        subfilter.F0 = some true ∧ subfilter.F0Range.isSome)) ∧
    (∀ g : ℚ, PPStage.joinGaps g ∈ postProcStages spInfo subfilter cnnModel ↔
      ((spInfo.method = none ∨ spInfo.method = some "wv") ∧
        g = subfilter.timeRange.2.2.2)) ∧
    (spInfo.method = some "chp" →
      ∀ g : ℚ, PPStage.joinGaps g ∉ postProcStages spInfo subfilter cnnModel) ∧
    (∀ m : ℚ, PPStage.deleteShort m ∈ postProcStages spInfo subfilter cnnModel ↔
      (0 < subfilter.timeRange.1 ∧ m = subfilter.timeRange.1)) := by
  unfold postProcStages
  by_cases hm : spInfo.method = none ∨ spInfo.method = some "wv" <;>
    by_cases hf : subfilter.F0 = some true ∧ subfilter.F0Range.isSome <;>
    by_cases hd : 0 < subfilter.timeRange.1 <;>
    cases cnnModel <;>
    simp only [hm, hf, hd, if_pos, if_neg, if_true, if_false, not_false_iff,
      iff_true, iff_false, List.mem_append, List.mem_cons, List.not_mem_nil,
      List.mem_singleton, or_false, false_or, reduceCtorEq] <;>
    constructor
  all_goals
    try constructor
  all_goals
    try constructor
  all_goals
    simp_all [PPStage.joinGaps.injEq, PPStage.deleteShort.injEq]
  all_goals
    rcases hm with hm | hm <;> simp_all

/-- Witness for C2: on a `"chp"`-method filter, no gap join appears in the
stage trace. -/
theorem postProcFull_stage_gating_witness :
    PPStage.joinGaps 1 ∉ postProcStages exChpFilter exSub false :=
  (postProcFull_stage_gating exChpFilter exSub false).2.2.1 rfl 1

/-- **C3** Time-window decision.  A file whose basename carries a
`DDMMYY_HHMMSS` timestamp (six digits, underscore, six digits; second
group read as clock time `t` in seconds since midnight) is processed iff
`windowStart = windowEnd`, or `windowStart < windowEnd` and
`windowStart ≤ t ≤ windowEnd`, or `windowStart > windowEnd` and
(`t ≥ windowStart` or `t ≤ windowEnd`); a file without such a timestamp
is always processed. -/
theorem timeWindow_decision (filename : List Char) (ws we : ℕ) :
    (∀ g, searchDOC (basename filename) = some g →
      (fileProcessed filename ws we = true ↔
        (ws = we ∨ (ws < we ∧ ws ≤ sTimeOf g ∧ sTimeOf g ≤ we) ∨
          (we < ws ∧ (ws ≤ sTimeOf g ∨ sTimeOf g ≤ we))))) ∧
    (searchDOC (basename filename) = none → fileProcessed filename ws we = true) := by
  constructor
  · intro g hg
    unfold fileProcessed
    rw [hg]
    by_cases h1 : ws = we
    · subst h1
      simp
    · by_cases h2 : ws < we
      · simp only [if_neg h1, if_pos h2, decide_eq_true_eq]
        omega
      · simp only [if_neg h1, if_neg h2, decide_eq_true_eq]
        omega
  · intro hnone
    unfold fileProcessed
    rw [hnone]

/-- Witness for C3 at the spec's examples: window 8:00–17:00 processes a
file stamped 08:30:00 and skips one stamped 18:00:00; the midnight window
17:00–8:00 processes a file stamped 23:00:00; a file without a timestamp
is always processed. -/
theorem timeWindow_decision_witness :
    fileProcessed ("20210315_083000.wav".toList) 28800 61200 = true ∧
    fileProcessed ("20210315_180000.wav".toList) 28800 61200 = false ∧
    fileProcessed ("20210315_230000.wav".toList) 61200 28800 = true ∧
    fileProcessed ("recording.wav".toList) 28800 61200 = true := by
  refine ⟨?_, ?_, ?_, ?_⟩
  · exact ((timeWindow_decision ("20210315_083000.wav".toList) 28800 61200).1
      ['0', '8', '3', '0', '0', '0'] (by decide)).mpr (by decide)
  · have h := (timeWindow_decision ("20210315_180000.wav".toList) 28800 61200).1
      ['1', '8', '0', '0', '0', '0'] (by decide)
    by_contra hc
    have := h.mp (by revert hc; decide)
    revert this
    decide
  · exact ((timeWindow_decision ("20210315_230000.wav".toList) 61200 28800).1
      ['2', '3', '0', '0', '0', '0'] (by decide)).mpr (by decide)
  · exact (timeWindow_decision ("recording.wav".toList) 28800 61200).2 (by decide)

lemma foldl_addSegment (f : PPSeg → Seg) (l : List PPSeg) (acc : List Seg) :
    l.foldl (fun a s => addSegment a (f s)) acc = acc ++ l.map f := by
  induction l generalizing acc with
  | nil => simp
  | cons x xs ih =>
    rw [List.foldl_cons, ih]
    simp [addSegment]

/-- **C5 (counterexample)** The claim stamps the upper frequency edge as
`min(FreqRange[1], sampleRate/2)` with true division; the code uses
`sampleRate // 2`.  At the odd rate `sampleRate = 44101` with
`FreqRange = [0, 22051]` the code produces `freqHigh = 22050`, while the
claimed formula gives the Nyquist value `44101/2 = 22050.5`. -/
theorem makeSegments_nyquist_counterexample :
    (makeSegments 44101 [] [((0, 1), 50)] (some ("f", "sp", exSubOdd))).map
        (fun g => g.freqHigh) = [22050] ∧
    specFreqHigh 44101 exSubOdd.freqRange.2 = 44101/2 ∧
    (22050 : ℚ) ≠ 44101/2 := by
  refine ⟨by rfl, ?_, by norm_num⟩
  norm_num [specFreqHigh, exSubOdd]

/-- **C5 (amended)** Accumulator postcondition, with the Nyquist clip
written as the source computes it (`sampleRate // 2`, floor division):
in labeled mode every candidate becomes one appended `Segment` with the
candidate's interval, frequency range
`[FreqRange[0], min(FreqRange[1], sampleRate // 2)]` and exactly one
label `{species, certainty := s[1], filter, calltype}`; in any-sound
mode every candidate becomes a `Segment` with frequency range `(0, 0)`
and the single label `{species := "Don't Know", certainty := 0}`. -/
theorem makeSegments_accumulator (sampleRate : ℕ) (segmentsList : List Seg)
    (segmentsNew : List PPSeg) (filtName species : String) (subfilter : SubFilter) :
    makeSegments sampleRate segmentsList segmentsNew (some (filtName, species, subfilter)) =
      segmentsList ++ segmentsNew.map (fun s =>
        { t0 := s.1.1, t1 := s.1.2, freqLow := subfilter.freqRange.1,
          freqHigh := min subfilter.freqRange.2 ((sampleRate / 2 : ℕ) : ℚ),
          labels := [{ species := some species, certainty := s.2,
                       filter := some filtName, calltype := some subfilter.calltype }] }) ∧
    makeSegments sampleRate segmentsList segmentsNew none =
      segmentsList ++ segmentsNew.map (fun s =>
        { t0 := s.1.1, t1 := s.1.2, freqLow := 0, freqHigh := 0,
          labels := [{ species := some "Don't Know", certainty := 0,
                       filter := none, calltype := none }] }) := by
  constructor
  · simp only [makeSegments]
    exact foldl_addSegment _ _ _
  · simp only [makeSegments, addBasicSegments]

/-- **C6 (counterexample)** The output-segment bounds invariant does not
hold for every filter configuration and detector output: with
`FreqRange = [5000, 7000]` at `sampleRate = 8000` the produced segment
has `freqLow = 5000 > 4000 = freqHigh`, and a detector candidate with
`start = end = 1` yields a segment with `timeStart = timeEnd`. -/
theorem segment_bounds_counterexample :
    (makeSegments 8000 [] [((0, 1), 50)] (some ("f", "sp", exSubHigh))).head? =
      some { t0 := 0, t1 := 1, freqLow := 5000, freqHigh := 4000,
             labels := [{ species := some "sp", certainty := 50,
                          filter := some "f", calltype := some "c" }] } ∧
    ¬ segOK 8000 { t0 := 0, t1 := 1, freqLow := 5000, freqHigh := 4000,
                   labels := [{ species := some "sp", certainty := 50,
                                filter := some "f", calltype := some "c" }] } ∧
    (makeSegments 16000 [] [((1, 1), 50)] (some ("f", "sp", exSub))).head? =
      some { t0 := 1, t1 := 1, freqLow := 1000, freqHigh := 7000,
             labels := [{ species := some "sp", certainty := 50,
                          filter := some "f", calltype := some "call" }] } ∧
    ¬ segOK 16000 { t0 := 1, t1 := 1, freqLow := 1000, freqHigh := 7000,
                    labels := [{ species := some "sp", certainty := 50,
                                 filter := some "f", calltype := some "call" }] } := by
  refine ⟨by rfl, ?_, by rfl, ?_⟩
  · intro h
    have := h.2.2.2.1
    norm_num at this
  · intro h
    exact absurd h.2.1 (by norm_num)

/-- **C6 (amended)** Bounds invariant under the configuration and
detector conditions the code relies on: if every candidate satisfies
`0 ≤ start < end` and, in labeled mode, the subfilter satisfies
`0 ≤ FreqRange[0]`, `FreqRange[0] ≤ FreqRange[1]` and
`FreqRange[0] ≤ sampleRate // 2`, then every segment produced by
`makeSegments` satisfies `0 ≤ timeStart < timeEnd` and
`0 ≤ freqLow ≤ freqHigh ≤ sampleRate/2` (with `(0,0)` in any-sound
mode). -/
theorem makeSegments_bounds (sampleRate : ℕ) (segmentsNew : List PPSeg)
    (mode : Option (String × String × SubFilter))
    (ht : ∀ s ∈ segmentsNew, 0 ≤ s.1.1 ∧ s.1.1 < s.1.2)
    (hm : ∀ fn sp sf, mode = some (fn, sp, sf) →
      0 ≤ sf.freqRange.1 ∧ sf.freqRange.1 ≤ sf.freqRange.2 ∧
        sf.freqRange.1 ≤ ((sampleRate / 2 : ℕ) : ℚ)) :
    ∀ g ∈ makeSegments sampleRate [] segmentsNew mode, segOK sampleRate g := by
  have hhalf : ((sampleRate / 2 : ℕ) : ℚ) ≤ (sampleRate : ℚ) / 2 := by
    exact_mod_cast Nat.cast_div_le
  intro g hg
  match mode with
  | some (fn, sp, sf) =>
    obtain ⟨hf0, hf01, hfn⟩ := hm fn sp sf rfl
    simp only [makeSegments] at hg
    rw [foldl_addSegment] at hg
    simp only [List.nil_append, List.mem_map] at hg
    obtain ⟨s, hs, rfl⟩ := hg
    obtain ⟨hs0, hs1⟩ := ht s hs
    exact ⟨hs0, hs1, hf0, le_min hf01 hfn, le_trans (min_le_right _ _) hhalf⟩
  | none =>
    simp only [makeSegments, addBasicSegments, List.nil_append, List.mem_map] at hg
    obtain ⟨s, hs, rfl⟩ := hg
    obtain ⟨hs0, hs1⟩ := ht s hs
    refine ⟨hs0, hs1, le_refl 0, le_refl 0, by positivity⟩

/-- Witness for the amended C6: a well-configured subfilter at 16 kHz
yields a segment within bounds. -/
theorem makeSegments_bounds_witness :
    segOK 16000 { t0 := 0, t1 := 1, freqLow := 1000, freqHigh := 7000,
                  labels := [{ species := some "sp", certainty := 50,
                               filter := some "f", calltype := some "call" }] } :=
  makeSegments_bounds 16000 [((0, 1), 50)] (some ("f", "sp", exSub))
    (by decide)
    (by intro fn sp sf h; injection h with h1; cases h1; simp [exSub]; norm_num)
    _ (by decide)

/-- **C7** Offset correction.  Both the tail of `postProcFull`
(lines 381–386) and the any-sound branch of `detectFile` (lines 281–284)
shift every candidate's start and end forward by exactly
`start/sampleRate` seconds when `start ≠ 0` (certainty and order
untouched), and are the identity on the candidate list when
`start = 0`. -/
theorem offset_correction (start sampleRate : ℕ) (segments : List PPSeg) :
    (start ≠ 0 →
      (∀ i : ℕ,
        (postProcAdjust start sampleRate segments).get? i =
          (segments.get? i).map (fun seg =>
            ((seg.1.1 + (start : ℚ) / (sampleRate : ℚ),
              seg.1.2 + (start : ℚ) / (sampleRate : ℚ)), seg.2)) ∧
        (anySoundAdjust start sampleRate segments).get? i =
          (segments.get? i).map (fun seg =>
            ((seg.1.1 + (start : ℚ) / (sampleRate : ℚ),
              seg.1.2 + (start : ℚ) / (sampleRate : ℚ)), seg.2)))) ∧
    (start = 0 →
      postProcAdjust start sampleRate segments = segments ∧
      anySoundAdjust start sampleRate segments = segments) := by
  constructor
  · intro h0 i
    constructor <;> simp [postProcAdjust, anySoundAdjust, h0, List.get?_map]
  · intro h0
    constructor <;> simp [postProcAdjust, anySoundAdjust, h0]

/-- Witness for C7: a page starting at sample 16000 of a 16 kHz file
shifts the candidate `[0, 1]` to `[1, 2]`; a page starting at 0 leaves
it unchanged. -/
theorem offset_correction_witness :
    (postProcAdjust 16000 16000 [((0, 1), 50)]).get? 0 = some ((1, 2), 50) ∧
    postProcAdjust 0 16000 [((0, 1), 50)] = [((0, 1), 50)] := by
  constructor
  · have h := ((offset_correction 16000 16000 [((0, 1), 50)]).1 (by norm_num) 0).1
    rw [h]
    norm_num
  · exact ((offset_correction 0 16000 [((0, 1), 50)]).2 rfl).1

/-! ## Helper development for the re-detection wipe -/

lemma stepList_bind {α : Type} (p q : α → Bool) (ls : List α) :
    (stepList p ls).bind (stepList q) = stepList (fun a => p a || q a) ls := by
  by_cases hp : ls.any p = true
  · have hpq : ls.any (fun a => p a || q a) = true := by
      rcases List.any_eq_true.mp hp with ⟨a, ha, hpa⟩
      exact List.any_eq_true.mpr ⟨a, ha, by simp [hpa]⟩
    by_cases hk1 : (ls.filter (fun a => !(p a))).isEmpty = true
    · have hall : ∀ a ∈ ls, p a = true := by
        intro a ha
        by_contra hc
        have hmem : a ∈ ls.filter (fun a => !(p a)) :=
          List.mem_filter.mpr ⟨ha, by simp [Bool.eq_false_iff.mpr hc]⟩
        rw [List.isEmpty_iff] at hk1
        rw [hk1] at hmem
        exact List.not_mem_nil a hmem
      have hk : (ls.filter (fun a => !(p a || q a))).isEmpty = true := by
        rw [List.isEmpty_iff, List.filter_eq_nil_iff]
        intro a ha
        simp [hall a ha]
      have h1 : stepList p ls = none := by
        unfold stepList; rw [if_pos hp, if_pos hk1]
      have h2 : stepList (fun a => p a || q a) ls = none := by
        unfold stepList; rw [if_pos hpq, if_pos hk]
      rw [h1, h2, Option.none_bind]
    · have hfeq : (ls.filter (fun a => !(p a))).filter (fun a => !(q a)) =
          ls.filter (fun a => !(p a || q a)) := by
        rw [List.filter_filter]
        apply List.filter_congr
        intro a _
        simp [Bool.not_or, Bool.and_comm]
      have h1 : stepList p ls = some (ls.filter (fun a => !(p a))) := by
        unfold stepList; rw [if_pos hp, if_neg hk1]
      rw [h1, Option.some_bind]
      by_cases hq : (ls.filter (fun a => !(p a))).any q = true
      · by_cases hk2 : ((ls.filter (fun a => !(p a))).filter (fun a => !(q a))).isEmpty = true
        · have hk2f : (ls.filter (fun a => !(p a || q a))).isEmpty = true := by
            rw [← hfeq]; exact hk2
          have h2 : stepList q (ls.filter (fun a => !(p a))) = none := by
            unfold stepList; rw [if_pos hq, if_pos hk2]
          have h3 : stepList (fun a => p a || q a) ls = none := by
            unfold stepList; rw [if_pos hpq, if_pos hk2f]
          rw [h2, h3]
        · have hk2f : ¬ (ls.filter (fun a => !(p a || q a))).isEmpty = true := by
            rw [← hfeq]; exact hk2
          have h2 : stepList q (ls.filter (fun a => !(p a))) =
              some (ls.filter (fun a => !(p a || q a))) := by
            unfold stepList; rw [if_pos hq, if_neg hk2, hfeq]
          have h3 : stepList (fun a => p a || q a) ls =
              some (ls.filter (fun a => !(p a || q a))) := by
            unfold stepList; rw [if_pos hpq, if_neg hk2f]
          rw [h2, h3]
      · have hallk : ∀ a ∈ ls.filter (fun a => !(p a)), q a = false := by
          intro a ha
          cases hqa : q a
          · rfl
          · exact absurd (List.any_eq_true.mpr ⟨a, ha, hqa⟩) hq
        have hkeq : ls.filter (fun a => !(p a || q a)) = ls.filter (fun a => !(p a)) := by
          rw [← hfeq]
          apply List.filter_eq_self.mpr
          intro a ha
          simp [hallk a ha]
        have h2 : stepList q (ls.filter (fun a => !(p a))) =
            some (ls.filter (fun a => !(p a))) := by
          unfold stepList; rw [if_neg hq]
        have h3 : stepList (fun a => p a || q a) ls =
            some (ls.filter (fun a => !(p a))) := by
          unfold stepList
          rw [if_pos hpq, hkeq, if_neg hk1]
        rw [h2, h3]
  · have hallp : ∀ a ∈ ls, p a = false := by
      intro a ha
      cases hpa : p a
      · rfl
      · exact absurd (List.any_eq_true.mpr ⟨a, ha, hpa⟩) hp
    have hor : ls.any (fun a => p a || q a) = ls.any q := by
      induction ls with
      | nil => rfl
      | cons x xs ih =>
        simp only [List.any_cons, hallp x (by simp)]
        rw [ih (fun hc => hp (List.any_eq_true.mpr
            (by rcases List.any_eq_true.mp hc with ⟨a, ha, hpa⟩
                exact ⟨a, by simp [ha], hpa⟩)))
          (fun a ha => hallp a (by simp [ha]))]
        simp
    have hfor : ls.filter (fun a => !(p a || q a)) = ls.filter (fun a => !(q a)) := by
      apply List.filter_congr
      intro a ha
      simp [hallp a ha]
    have h1 : stepList p ls = some ls := by
      unfold stepList; rw [if_neg hp]
    rw [h1, Option.some_bind]
    unfold stepList
    rw [hor, hfor]

lemma bind_map_comm {α β γ : Type} (o : Option α) (f : α → Option β) (v : β → γ) :
    o.bind (fun x => (f x).map v) = (o.bind f).map v := by
  cases o <;> rfl

/-- The per-segment `if` of each wipe pass, rephrased through
`stepList` on the label list. -/
lemma seg_if_eq_stepList (p : SegLabel → Bool) (g : Seg) :
    (if g.labels.any p then
       (if (g.labels.filter (fun l => !(p l))).isEmpty then none
        else some { g with labels := g.labels.filter (fun l => !(p l)) })
     else some g)
    = (stepList p g.labels).map (fun ks => { g with labels := ks }) := by
  cases g with
  | mk t0 t1 fl fh ls =>
    unfold stepList
    by_cases h : ls.any p = true
    · rw [if_pos h, if_pos h]
      by_cases h2 : (ls.filter (fun l => !(p l))).isEmpty = true
      · rw [if_pos h2, if_pos h2]
        rfl
      · rw [if_neg h2, if_neg h2]
        rfl
    · rw [if_neg h, if_neg h]
      rfl

lemma wipeOneSpecies_eq_stepList (sp : String) (segs : List Seg) :
    wipeOneSpecies sp segs = segs.filterMap (fun g =>
      (stepList (fun l => l.species = some sp) g.labels).map
        (fun ks => { g with labels := ks })) := by
  unfold wipeOneSpecies
  congr 1
  funext g
  rw [← seg_if_eq_stepList (fun l => l.species = some sp) g]
  unfold hasSpeciesLabel wipeSpeciesSeg
  simp only [ne_eq, decide_not]

/-- **C8** Re-detection wipe.  Reloading before re-detecting the species
`spnames` removes exactly the labels of those species: a loaded segment
carrying at least one matching label has precisely those labels removed
and is deleted entirely when no label remains; every other segment (and
every label of another species) is preserved intact and in order. -/
theorem loadFileWipe_removes_exactly (spnames : List String) (segments : List Seg) :
    loadFileWipe spnames segments = segments.filterMap (fun g =>
      if g.labels.any (fun l => spnames.any (fun sp => l.species = some sp)) then
        (if (g.labels.filter (fun l =>
              !(spnames.any (fun sp => l.species = some sp)))).isEmpty then none
         else some { g with labels := g.labels.filter (fun l =>
              !(spnames.any (fun sp => l.species = some sp))) })
      else some g) := by
  induction spnames generalizing segments with
  | nil =>
    have hnone : ∀ g : Seg,
        (g.labels.any (fun l => ([] : List String).any (fun sp => l.species = some sp)))
          = false := by
      intro g
      cases hg : g.labels.any (fun l => ([] : List String).any (fun sp => l.species = some sp))
      · rfl
      · rcases List.any_eq_true.mp hg with ⟨l, _, hl⟩
        simp at hl
    show segments = _
    conv_lhs => rw [← List.filterMap_some segments]
    congr 1
    funext g
    rw [if_neg (by rw [hnone g]; exact Bool.false_ne_true)]
  | cons sp sps ih =>
    show loadFileWipe sps (wipeOneSpecies sp segments) = _
    rw [ih, wipeOneSpecies_eq_stepList, List.filterMap_filterMap]
    congr 1
    funext g
    have hinner : (fun (y : Seg) =>
        if y.labels.any (fun l => sps.any (fun s => l.species = some s)) then
          (if (y.labels.filter (fun l =>
                !(sps.any (fun s => l.species = some s)))).isEmpty then none
           else some { y with labels := y.labels.filter (fun l =>
                !(sps.any (fun s => l.species = some s))) })
        else some y)
        = (fun y => (stepList (fun l => sps.any (fun s => l.species = some s)) y.labels).map
            (fun ks => { y with labels := ks })) := by
      funext y
      exact seg_if_eq_stepList _ y
    rw [seg_if_eq_stepList (fun l => (sp :: sps).any (fun s => l.species = some s)) g,
      hinner]
    cases g with
    | mk t0 t1 fl fh ls =>
      rw [Option.bind_map]
      have hcomp : ((fun y => (stepList (fun l => sps.any (fun s => l.species = some s))
            y.labels).map (fun ks => { y with labels := ks })) ∘
            (fun ks => ({ t0 := t0, t1 := t1, freqLow := fl, freqHigh := fh,
                          labels := ks } : Seg)))
          = (fun ks => (stepList (fun l => sps.any (fun s => l.species = some s)) ks).map
              (fun ks2 => ({ t0 := t0, t1 := t1, freqLow := fl, freqHigh := fh,
                             labels := ks2 } : Seg))) := by
        funext ks
        rfl
      rw [hcomp, bind_map_comm, stepList_bind]
      have hA : (fun (l : SegLabel) => (sp :: sps).any (fun s => l.species = some s))
          = (fun l => (decide (l.species = some sp) ||
              sps.any (fun s => l.species = some s))) := by
        funext l
        rw [List.any_cons]
      rw [hA]

/-! ## Fatal configuration errors and the unassigned-variable exit -/

lemma one_lt_dedup_length {α : Type} [DecidableEq α] (l : List α) (a b : α)
    (ha : a ∈ l) (hb : b ∈ l) (hab : a ≠ b) : 1 < l.dedup.length := by
  have ha2 : a ∈ l.dedup := List.mem_dedup.mpr ha
  have hb2 : b ∈ l.dedup := List.mem_dedup.mpr hb
  rcases hd : l.dedup with _ | ⟨x, _ | ⟨y, t⟩⟩
  · rw [hd] at ha2
    exact absurd ha2 (List.not_mem_nil a)
  · rw [hd] at ha2 hb2
    simp only [List.mem_singleton] at ha2 hb2
    exact absurd (ha2.trans hb2.symm) hab
  · simp

lemma detectSampleRateCheck_error (filters : List Filter) (f1 f2 : Filter)
    (h1 : f1 ∈ filters) (h2 : f2 ∈ filters) (hne : f1.sampleRate ≠ f2.sampleRate) :
    detectSampleRateCheck filters =
      Except.error
        "ERROR: multiple sample rates found in selected recognisers, change selection" := by
  unfold detectSampleRateCheck
  rw [if_pos]
  exact one_lt_dedup_length _ f1.sampleRate f2.sampleRate
    (List.mem_map_of_mem _ h1) (List.mem_map_of_mem _ h2) hne

/-- **C9** Fatal configuration errors.  (a) When two selected filters carry
distinct `SampleRate`s, the check in `detect` raises `ValueError`, and the
whole `detect` run aborts with that error before any page is processed;
(b) a present detection-method string other than `"wv"` and `"chp"` makes
the dispatch in `detectFile` raise.  In both cases the error propagates
instead of being skipped. -/
theorem fatal_configuration_errors :
    (∀ (filters : List Filter) (f1 f2 : Filter), f1 ∈ filters → f2 ∈ filters →
      f1.sampleRate ≠ f2.sampleRate →
      detectSampleRateCheck filters =
        Except.error
          "ERROR: multiple sample rates found in selected recognisers, change selection") ∧
    (∀ (nfilters : List (String × Filter)) (sidecar : Option (SLMeta × List Seg))
        (sampleRate datalength : ℕ) (postOut : ℕ → ℕ → ℕ → List PPSeg)
        (anyOut : ℕ → List PPSeg) (n1 n2 : String × Filter),
      n1 ∈ nfilters → n2 ∈ nfilters → n1.2.sampleRate ≠ n2.2.sampleRate →
      detectRun nfilters sidecar sampleRate datalength postOut anyOut =
        Except.error
          "ERROR: multiple sample rates found in selected recognisers, change selection") ∧
    (∀ (f : Filter) (m : String), f.method = some m → m ≠ "wv" → m ≠ "chp" →
      dispatchMethod f = Except.error "ERROR: unrecognized method") := by
  refine ⟨detectSampleRateCheck_error, ?_, ?_⟩
  · intro nfilters sidecar sampleRate datalength postOut anyOut n1 n2 h1 h2 hne
    unfold detectRun
    rw [detectSampleRateCheck_error (nfilters.map Prod.snd) n1.2 n2.2
      (List.mem_map_of_mem _ h1) (List.mem_map_of_mem _ h2) hne]
  · intro f m hm hwv hchp
    unfold dispatchMethod
    rw [hm]
    show (if m = "wv" then Except.ok WvMethod.wv
      else if m = "chp" then Except.ok WvMethod.chp
      else Except.error "ERROR: unrecognized method") =
        Except.error "ERROR: unrecognized method"
    rw [if_neg hwv, if_neg hchp]

/-- Witness for C9: mixing a 16 kHz and an 8 kHz recogniser errors; the
method string `"nn"` errors. -/
theorem fatal_configuration_errors_witness :
    detectSampleRateCheck [exFilter, exFilter8k] =
      Except.error
        "ERROR: multiple sample rates found in selected recognisers, change selection" ∧
    dispatchMethod exBadFilter = Except.error "ERROR: unrecognized method" :=
  ⟨fatal_configuration_errors.1 [exFilter, exFilter8k] exFilter exFilter8k
      (by simp) (by simp) (by decide),
    fatal_configuration_errors.2.2 exBadFilter "nn" rfl (by decide) (by decide)⟩

lemma processPage_skip (sampleRate : ℕ) (method speciesStr : String)
    (nfilters : List (String × Filter)) (postOut : ℕ → ℕ → ℕ → List PPSeg)
    (anyOut : ℕ → List PPSeg) (acc : List Seg × Option (List PPSeg)) (pg : ℕ × ℕ)
    (hshort : ((pg.2 - pg.1 : ℕ) : ℚ) / (sampleRate : ℚ) < 2)
    (hc : method ≠ "Click") (hb : method ≠ "Bats") :
    processPage sampleRate method speciesStr nfilters postOut anyOut acc pg =
      Except.ok acc := by
  have hshort2 : mkRat ((pg.2 - pg.1 : ℕ) : ℤ) sampleRate < 2 := by
    rw [Rat.mkRat_eq_div]
    push_cast
    exact hshort
  unfold processPage
  rw [if_pos ⟨hshort2, hc, hb⟩]

lemma foldlM_all_skip (sampleRate : ℕ) (method speciesStr : String)
    (nfilters : List (String × Filter)) (postOut : ℕ → ℕ → ℕ → List PPSeg)
    (anyOut : ℕ → List PPSeg) (pgs : List (ℕ × ℕ))
    (acc : List Seg × Option (List PPSeg))
    (h : ∀ pg ∈ pgs, ((pg.2 - pg.1 : ℕ) : ℚ) / (sampleRate : ℚ) < 2)
    (hc : method ≠ "Click") (hb : method ≠ "Bats") :
    pgs.foldlM (processPage sampleRate method speciesStr nfilters postOut anyOut) acc =
      Except.ok acc := by
  induction pgs with
  | nil => rfl
  | cons x xs ih =>
    rw [List.foldlM_cons,
      processPage_skip sampleRate method speciesStr nfilters postOut anyOut acc x
        (h x (by simp)) hc hb]
    exact ih (fun pg hpg => h pg (by simp [hpg]))

lemma pageBounds_snd_le (N sip : ℕ) (pg : ℕ × ℕ) (h : pg ∈ pageBounds N sip) :
    pg.2 ≤ N := by
  unfold pageBounds at h
  rcases List.mem_map.mp h with ⟨p, _, hp⟩
  rw [← hp]
  exact min_le_right _ _

/-- **C10** Unassigned `postsegs`.  For a non-`"Click"`/non-`"Bats"` run in
which every page is skipped as shorter than 2 seconds — in particular for
any file with fewer than `2*sampleRate` samples — `detectFile` reaches
`return len(postsegs)` with `postsegs` never assigned and raises a
`NameError` instead of returning a count. -/
theorem detectFile_all_pages_skipped_nameError
    (sampleRate datalength : ℕ) (method speciesStr : String)
    (nfilters : List (String × Filter)) (postOut : ℕ → ℕ → ℕ → List PPSeg)
    (anyOut : ℕ → List PPSeg) (initSegs : List Seg) (sip : ℕ)
    (hsip : samplesInPage sampleRate method (nfilters.map Prod.snd) = some sip)
    (hc : method ≠ "Click") (hb : method ≠ "Bats") :
    ((∀ pg ∈ pageBounds datalength sip,
        ((pg.2 - pg.1 : ℕ) : ℚ) / (sampleRate : ℚ) < 2) →
      detectFileRun sampleRate datalength method speciesStr nfilters postOut anyOut
          initSegs =
        Except.error "NameError: name 'postsegs' is not defined") ∧
    (0 < sampleRate → datalength < 2 * sampleRate →
      detectFileRun sampleRate datalength method speciesStr nfilters postOut anyOut
          initSegs =
        Except.error "NameError: name 'postsegs' is not defined") := by
  have hmain : (∀ pg ∈ pageBounds datalength sip,
      ((pg.2 - pg.1 : ℕ) : ℚ) / (sampleRate : ℚ) < 2) →
      detectFileRun sampleRate datalength method speciesStr nfilters postOut anyOut
          initSegs =
        Except.error "NameError: name 'postsegs' is not defined" := by
    intro hall
    unfold detectFileRun
    simp only [hsip]
    rw [foldlM_all_skip sampleRate method speciesStr nfilters postOut anyOut
      (pageBounds datalength sip) (initSegs, none) hall hc hb]
  refine ⟨hmain, fun hfs hN => hmain ?_⟩
  intro pg hpg
  have hle : pg.2 ≤ datalength := pageBounds_snd_le datalength sip pg hpg
  have hlt : pg.2 - pg.1 < 2 * sampleRate := by omega
  rw [div_lt_iff (by exact_mod_cast hfs)]
  calc ((pg.2 - pg.1 : ℕ) : ℚ) < ((2 * sampleRate : ℕ) : ℚ) := by exact_mod_cast hlt
  _ = 2 * (sampleRate : ℚ) := by push_cast; ring

/-- Witness for C10: a 100-sample file at 16 kHz (a 6.25 ms recording)
makes `detectFile` raise the `NameError`. -/
theorem detectFile_all_pages_skipped_nameError_witness :
    detectFileRun 16000 100 "Wavelets" "Kiwi" [("KiwiRec", exFilter)] exPost
        (fun _ => []) [] =
      Except.error "NameError: name 'postsegs' is not defined" :=
  (detectFile_all_pages_skipped_nameError 16000 100 "Wavelets" "Kiwi"
    [("KiwiRec", exFilter)] exPost (fun _ => []) [] (900 * 16000) (by rfl)
    (by decide) (by decide)).2 (by norm_num) (by norm_num)

/-! ## End-of-file persistence -/

/-- **C4 (counterexample)** A complete, successful `detect` run on a
2-second 16 kHz file writes no annotation file at all: the run finishes
with result segments and a count, but the list of files serialized
during the run is empty — `saveAnnotation` is never invoked, so the
sidecar `filename + ".data"` is not written at the end of processing. -/
theorem detect_never_serializes_counterexample :
    detectRun [("KiwiRec", exFilter)] none 16000 32000 exPost (fun _ => []) =
      Except.ok ({ operator := some "Auto", reviewer := some "",
                   duration := some ((32000 : ℚ) / (16000 : ℚ)),
                   noiseLevel := none, noiseTypes := [] },
        [{ t0 := 0, t1 := 1, freqLow := 1000, freqHigh := 7000,
           labels := [{ species := some "Kiwi", certainty := 50,
                        filter := some "KiwiRec", calltype := some "call" }] }],
        1, ([] : List String)) := by
  rfl

/-- **C4 (amended)** What holds instead: a `detect` run that completes
returns the SegmentList with metadata `Operator = "Auto"`,
`Reviewer = ""` and `Duration` = file length in seconds already attached
during `loadFile` (fresh-file case), but serializes nothing — the list
of files written is always empty.  The serialization with exactly that
metadata is implemented in `saveAnnotation`, which would write
`filename + ".data"`, but no caller invokes it. -/
theorem detect_metadata_attached_but_not_saved :
    (∀ (nfilters : List (String × Filter)) (sampleRate datalength : ℕ)
        (postOut : ℕ → ℕ → ℕ → List PPSeg) (anyOut : ℕ → List PPSeg)
        (m : SLMeta) (segs : List Seg) (n : ℕ) (saved : List String),
      detectRun nfilters none sampleRate datalength postOut anyOut =
          Except.ok (m, segs, n, saved) →
      m.operator = some "Auto" ∧ m.reviewer = some "" ∧
        m.duration = some ((datalength : ℚ) / (sampleRate : ℚ)) ∧ saved = []) ∧
    (∀ (meta : SLMeta) (filename : String) (datalength sampleRate : ℕ)
        (method : String) (saved : List String), method ≠ "Intermittent sampling" →
      (saveAnnotationRun meta filename datalength sampleRate method saved).1.operator =
          some "Auto" ∧
      (saveAnnotationRun meta filename datalength sampleRate method saved).1.reviewer =
          some "" ∧
      (saveAnnotationRun meta filename datalength sampleRate method saved).1.duration =
          some ((datalength : ℚ) / (sampleRate : ℚ)) ∧
      (saveAnnotationRun meta filename datalength sampleRate method saved).2 =
          saved ++ [filename ++ ".data"]) := by
  constructor
  · intro nfilters sampleRate datalength postOut anyOut m segs n saved h
    unfold detectRun at h
    cases hsr : detectSampleRateCheck (nfilters.map Prod.snd) with
    | error e =>
      rw [hsr] at h
      simp at h
    | ok u =>
      rw [hsr] at h
      simp only [] at h
      cases hdf : detectFileRun sampleRate datalength "Wavelets"
          (" & ".intercalate (List.map Prod.fst nfilters)) nfilters postOut anyOut [] with
      | error e =>
        rw [hdf] at h
        simp at h
      | ok r =>
        obtain ⟨segs0, n0⟩ := r
        rw [hdf] at h
        simp only [Except.ok.injEq, Prod.mk.injEq] at h
        obtain ⟨hm, -, -, hsave⟩ := h
        rw [← hm, ← hsave]
        exact ⟨rfl, rfl, rfl, rfl⟩
  · intro meta filename datalength sampleRate method saved hmeth
    simp only [saveAnnotationRun, if_pos hmeth]
    simp

/-- Witness for the amended C4, at the counterexample's run and at a
concrete `saveAnnotation` call. -/
theorem detect_metadata_attached_but_not_saved_witness :
    ([] : List String) = [] ∧
    (saveAnnotationRun
        { operator := none, reviewer := none, duration := none,
          noiseLevel := none, noiseTypes := [] }
        "rec.wav" 32000 16000 "Wavelets" []).2 =
      [] ++ ["rec.wav" ++ ".data"] :=
  ⟨(detect_metadata_attached_but_not_saved.1 [("KiwiRec", exFilter)] 16000 32000 exPost
      (fun _ => [])
      { operator := some "Auto", reviewer := some "",
        duration := some ((32000 : ℚ) / (16000 : ℚ)),
        noiseLevel := none, noiseTypes := [] }
      [{ t0 := 0, t1 := 1, freqLow := 1000, freqHigh := 7000,
         labels := [{ species := some "Kiwi", certainty := 50,
                      filter := some "KiwiRec", calltype := some "call" }] }]
      1 [] (by rfl)).2.2.2,
    (detect_metadata_attached_but_not_saved.2
      { operator := none, reviewer := none, duration := none,
        noiseLevel := none, noiseTypes := [] }
      "rec.wav" 32000 16000 "Wavelets" [] (by decide)).2.2.2⟩

end AviaNZBatch
